import Mathlib

/-!
Verification of the gnmireverse client (src/gnmireverse/client/main.go).

The development shallowly embeds the program:

* the credential builder newTLSConfig is embedded as a pure function over an
  abstract file system FS, instrumented with a trace of the file operations it
  performs;
* the startup sequence of main (credential construction, then the two dials)
  is embedded as mainStartup, instrumented with a trace of network operations;
* the construction of the gNMI SubscribeRequest and the outgoing metadata
  context in subscribe are embedded as pure functions;
* the two concurrent sessions (subscribe, publish), the unbuffered handoff
  channel, the errgroup cancellation scope and the retry loop of main are
  embedded as a labeled small-step transition system: IStep gives the steps of
  one retry iteration, Sys adds the orchestrator transitions (eg.Wait and the
  restart of the for-loop).

Telemetry update messages (gnmi.SubscribeResponse values) are opaque to the
program, so the transition system is parametric in their type Msg.
-/

/-! ## Credential builder (newTLSConfig, main.go lines 52-82) -/

/-- Contents of a file, abstract bytes. -/
abbrev Bytes := List Nat

/-- A loaded X509 key pair, opaque to the program (tls.Certificate). -/
abbrev Cert := Bytes

/-- An x509.CertPool: the PEM blocks successfully appended to it. -/
structure CertPool where
  pems : List Bytes
deriving DecidableEq

/-- An empty pool, x509.NewCertPool(). -/
def CertPool.new : CertPool := { pems := [] }

/-- The fields of the Go tls.Config that newTLSConfig assigns. -/
structure TLSConfigGo where
  insecureSkipVerify : Bool := false
  rootCAs : Option CertPool := none
  certificates : List Cert := []
deriving DecidableEq

/-- The grpc.DialOption returned by newTLSConfig. -/
inductive DialOption where
  | withInsecure
  | withTransportCredentials (cfg : TLSConfigGo)
deriving DecidableEq

/-- The errors newTLSConfig can return (the ConfigError class of the design). -/
inductive ConfigErr where
  | readErr (msg : String)
  | appendCertsFailed
  | missingKeyFile
  | loadKeyPairErr (msg : String)
deriving DecidableEq

/-- File operations performed by newTLSConfig, tagged by code site. -/
inductive FileOp where
  | readCAFile (path : String)
  | loadKeyPairOp (certPath keyPath : String)
deriving DecidableEq

/-- The local file system and X509 environment newTLSConfig runs against:
ioutil.ReadFile, CertPool.AppendCertsFromPEM success, tls.LoadX509KeyPair. -/
structure FS where
  readFile : String → Except String Bytes
  appendOK : Bytes → Bool
  loadKeyPair : String → String → Except String Cert

/-- Embedding of newTLSConfig (main.go lines 52-82), instrumented with the
list of file operations performed.  The control flow mirrors the source: an
early insecure return when TLS is off; then a skipVerify / caFile branch; then
the client certificate branch. -/
def newTLSConfig (fs : FS) (useTLS skipVerify : Bool)
    (certFile keyFile caFile : String) :
    Except ConfigErr DialOption × List FileOp :=
  if !useTLS then
    (Except.ok DialOption.withInsecure, [])
  else
    let tlsConfig : TLSConfigGo := {}
    let step1 : Except ConfigErr TLSConfigGo × List FileOp :=
      if skipVerify then
        (Except.ok { tlsConfig with insecureSkipVerify := true }, [])
      else if caFile ≠ "" then
        match fs.readFile caFile with
        | Except.error e => (Except.error (ConfigErr.readErr e), [FileOp.readCAFile caFile])
        | Except.ok b =>
          let cp := CertPool.new
          if !fs.appendOK b then
            (Except.error ConfigErr.appendCertsFailed, [FileOp.readCAFile caFile])
          else
            (Except.ok { tlsConfig with rootCAs := some { cp with pems := cp.pems ++ [b] } },
              [FileOp.readCAFile caFile])
      else
        (Except.ok tlsConfig, [])
    match step1 with
    | (Except.error e, ops) => (Except.error e, ops)
    | (Except.ok cfg1, ops) =>
      if certFile ≠ "" then
        if keyFile = "" then
          (Except.error ConfigErr.missingKeyFile, ops)
        else
          match fs.loadKeyPair certFile keyFile with
          | Except.error e =>
            (Except.error (ConfigErr.loadKeyPairErr e), ops ++ [FileOp.loadKeyPairOp certFile keyFile])
          | Except.ok cert =>
            (Except.ok (DialOption.withTransportCredentials { cfg1 with certificates := [cert] }),
              ops ++ [FileOp.loadKeyPairOp certFile keyFile])
      else
        (Except.ok (DialOption.withTransportCredentials cfg1), ops)

/-! ## Startup sequence of main (main.go lines 110-125) -/

/-- The flag values read by main. -/
structure Flags where
  targetAddr : String
  destAddr : String
  useTLS : Bool
  skipVerify : Bool
  clientCert : String
  clientKey : String
  caFile : String

/-- The network environment: whether grpc.Dial succeeds on an address. -/
structure Net where
  dialOK : String → Bool

/-- Network operations performed at startup. -/
inductive NetOp where
  | dial (addr : String)
deriving DecidableEq

/-- How startup ends: a fatal configuration error (glog.Fatal), a fatal dial
error (glog.Fatalf), or entry into the retry loop. -/
inductive StartupOutcome where
  | fatalConfig (e : ConfigErr)
  | fatalDialDest
  | fatalDialTarget
  | enterLoop (opt : DialOption)
deriving DecidableEq

/-- Embedding of the startup portion of main (lines 110-125): build TLS
credentials, dial the collector, dial the target; a failure at any point
terminates the process.  Instrumented with the trace of dials attempted. -/
def mainStartup (fs : FS) (net : Net) (fl : Flags) :
    StartupOutcome × List NetOp :=
  match newTLSConfig fs fl.useTLS fl.skipVerify fl.clientCert fl.clientKey fl.caFile with
  | (Except.error e, _) => (StartupOutcome.fatalConfig e, [])
  | (Except.ok opt, _) =>
    if !net.dialOK fl.destAddr then
      (StartupOutcome.fatalDialDest, [NetOp.dial fl.destAddr])
    else if !net.dialOK fl.targetAddr then
      (StartupOutcome.fatalDialTarget, [NetOp.dial fl.destAddr, NetOp.dial fl.targetAddr])
    else
      (StartupOutcome.enterLoop opt, [NetOp.dial fl.destAddr, NetOp.dial fl.targetAddr])

/-! ## gNMI subscription request construction (main.go lines 169-186) -/

/-- One element of a gnmi.Path: a name and a set of key/value pairs. -/
structure PathElem where
  name : String
  key : List (String × String) := []
deriving DecidableEq

/-- A gnmi.Path.  The Prefix of the subscription list is such a path with
only the Target field set. -/
structure GPath where
  elem : List PathElem := []
  target : String := ""
  origin : String := ""
deriving DecidableEq

/-- gnmi.SubscriptionMode.  The client always selects TARGET_DEFINED. -/
inductive SubscriptionMode where
  | targetDefined
  | onChange
  | sample
deriving DecidableEq

/-- One gnmi.Subscription entry. -/
structure Subscription where
  path : GPath
  mode : SubscriptionMode
deriving DecidableEq

/-- A gnmi.SubscriptionList: the Prefix path (pfx) and the entries. -/
structure SubscriptionList where
  pfx : GPath
  subscription : List Subscription
deriving DecidableEq

/-- A gnmi.SubscribeRequest carrying a SubscriptionList. -/
structure SubscribeRequest where
  subscribe : SubscriptionList
deriving DecidableEq

/-- Embedding of lines 170-181: build the SubscriptionList with the target in
the Prefix, then append one TARGET_DEFINED subscription per configured path in
order (the for-loop over paths becomes a foldl of appends). -/
def mkSubscriptionList (target : String) (paths : List GPath) : SubscriptionList :=
  let subList : SubscriptionList := { pfx := { target := target }, subscription := [] }
  paths.foldl
    (fun sl p =>
      { sl with subscription :=
          sl.subscription ++ [{ path := p, mode := SubscriptionMode.targetDefined }] })
    subList

/-- Embedding of lines 182-186: wrap the SubscriptionList in the request. -/
def mkSubscribeRequest (target : String) (paths : List GPath) : SubscribeRequest :=
  { subscribe := mkSubscriptionList target paths }

/-! ## Call contexts and metadata (main.go lines 148-151 and 188-195) -/

/-- A context, reduced to the outgoing metadata it carries.  An empty list
means no outgoing metadata is attached. -/
structure Context where
  md : List (String × String)
deriving DecidableEq

/-- context.Background(): no metadata. -/
def backgroundCtx : Context := { md := [] }

/-- metadata.Pairs: fold a flat key, value, key, value, ... list into pairs. -/
def metadataPairs : List String → List (String × String)
  | k :: v :: rest => (k, v) :: metadataPairs rest
  | _ => []

/-- metadata.NewOutgoingContext: attach the given metadata to the context. -/
def newOutgoingContext (_ctx : Context) (md : List (String × String)) : Context :=
  { md := md }

/-- Embedding of lines 188-195: the context subscribe passes to
client.Subscribe.  When the username is non-empty the username/password pairs
are attached; otherwise the context is passed through unchanged. -/
def subscribeCallCtx (ctx : Context) (username password : String) : Context :=
  if username ≠ "" then
    newOutgoingContext ctx (metadataPairs ["username", username, "password", password])
  else
    ctx

/-- Embedding of line 151: publish passes its context to client.Publish
unchanged, attaching nothing. -/
def publishCallCtx (ctx : Context) : Context := ctx

/-! ## The bridge: sessions, handoff channel, cancellation, retry loop -/

/-- Per-process configuration relevant to the sessions. -/
structure Config where
  username : String
  password : String
  target : String
  paths : List GPath

/-- The error values a session run can produce.  Every return statement in
publish and subscribe wraps an error; contextCanceled stands for ctx.Err()
after the errgroup scope was cancelled.  subscribeRecvErr also covers a clean
stream closure by the target (io.EOF from Recv). -/
inductive GoError where
  | publishOpenErr
  | publishSendErr
  | subscribeOpenErr
  | subscribeSendErr
  | subscribeRecvErr
  | contextCanceled
deriving DecidableEq

/-- ctx.Err(): non-nil exactly when the scope has been cancelled. -/
def ctxErr (canceled : Bool) : Option GoError :=
  if canceled then some GoError.contextCanceled else none

/-- Control point of the subscribe session (main.go lines 167-214):
about to call client.Subscribe; about to send the SubscribeRequest; in the
Recv loop about to call Recv; holding a received response inside the select,
offering it to the channel; or returned with the given error value. -/
inductive SubPhase (Msg : Type) where
  | opening
  | sendingRequest
  | receiving
  | offering (m : Msg)
  | exited (r : Option GoError)

/-- Control point of the publish session (main.go lines 148-165): about to
call client.Publish; blocked in the select; holding a message received from
the channel, about to call stream.Send; or returned with the given error. -/
inductive PubPhase (Msg : Type) where
  | opening
  | selecting
  | sending (m : Msg)
  | exited (r : Option GoError)

/-- Whether the subscribe session has returned. -/
def SubPhase.isExited {Msg : Type} : SubPhase Msg → Bool
  | .exited _ => true
  | _ => false

/-- Whether the publish session has returned. -/
def PubPhase.isExited {Msg : Type} : PubPhase Msg → Bool
  | .exited _ => true
  | _ => false

/-- State of one retry iteration: the two session control points, the
messages the target has yet to deliver, the messages sent to the collector
stream, plus two history variables (messages that crossed the channel, and
SubscribeRequest values passed to stream.Send) and the errgroup cancellation
flag. -/
structure IterState (Msg : Type) where
  sub : SubPhase Msg
  pub : PubPhase Msg
  pending : List Msg
  sent : List Msg
  handed : List Msg
  reqs : List SubscribeRequest
  canceled : Bool

/-- A fresh iteration, as built at the top of the for-loop in main: both
goroutines at their entry points, a fresh unbuffered channel (no message has
crossed it), a fresh uncancelled errgroup scope.  ms is the sequence of
updates the target will deliver this iteration. -/
def initIter {Msg : Type} (ms : List Msg) : IterState Msg :=
  { sub := SubPhase.opening
    pub := PubPhase.opening
    pending := ms
    sent := []
    handed := []
    reqs := []
    canceled := false }

/-- Observable events of the system.  pubRecvResponse m would be a read of
the response side of the publish stream; the semantics never emits it (the code
contains no such call), and it is listed so that its absence is statable. -/
inductive Event (Msg : Type) where
  | pubOpen (md : List (String × String))
  | pubOpenFail
  | subOpen (md : List (String × String))
  | subOpenFail
  | subSendReq (r : SubscribeRequest)
  | subSendReqFail (r : SubscribeRequest)
  | subRecv (m : Msg)
  | subRecvFail
  | handoff (m : Msg)
  | pubSend (m : Msg)
  | pubSendFail (m : Msg)
  | pubRecvResponse (m : Msg)
  | subCtxDone
  | pubCtxDone
  | waitDone (r : Option GoError)
  | restart (ms : List Msg)

/-- Small-step semantics of one retry iteration: interleaved steps of the
subscribe goroutine and the publish goroutine, coupled by the unbuffered
channel (the handoff step is the rendezvous of the channel send in subscribe
with the select receive in publish) and the errgroup scope (a goroutine returning a non-nil error
cancels the scope).  Failures of network operations are environment choices,
so a fallible operation has a success step and a failure step. -/
inductive IStep {Msg : Type} (cfg : Config) :
    IterState Msg → Event Msg → IterState Msg → Prop where
  | pubOpen (st : IterState Msg) (h : st.pub = PubPhase.opening) :
      IStep cfg st (Event.pubOpen (publishCallCtx backgroundCtx).md)
        { st with pub := PubPhase.selecting }
  | pubOpenFail (st : IterState Msg) (h : st.pub = PubPhase.opening) :
      IStep cfg st Event.pubOpenFail
        { st with pub := PubPhase.exited (some GoError.publishOpenErr), canceled := true }
  | subOpen (st : IterState Msg) (h : st.sub = SubPhase.opening) :
      IStep cfg st (Event.subOpen (subscribeCallCtx backgroundCtx cfg.username cfg.password).md)
        { st with sub := SubPhase.sendingRequest }
  | subOpenFail (st : IterState Msg) (h : st.sub = SubPhase.opening) :
      IStep cfg st Event.subOpenFail
        { st with sub := SubPhase.exited (some GoError.subscribeOpenErr), canceled := true }
  | subSendReq (st : IterState Msg) (h : st.sub = SubPhase.sendingRequest) :
      IStep cfg st (Event.subSendReq (mkSubscribeRequest cfg.target cfg.paths))
        { st with sub := SubPhase.receiving
                  reqs := st.reqs ++ [mkSubscribeRequest cfg.target cfg.paths] }
  | subSendReqFail (st : IterState Msg) (h : st.sub = SubPhase.sendingRequest) :
      IStep cfg st (Event.subSendReqFail (mkSubscribeRequest cfg.target cfg.paths))
        { st with sub := SubPhase.exited (some GoError.subscribeSendErr)
                  reqs := st.reqs ++ [mkSubscribeRequest cfg.target cfg.paths]
                  canceled := true }
  | subRecv (st : IterState Msg) (m : Msg) (rest : List Msg)
      (h : st.sub = SubPhase.receiving) (hp : st.pending = m :: rest) :
      IStep cfg st (Event.subRecv m)
        { st with sub := SubPhase.offering m, pending := rest }
  | subRecvFail (st : IterState Msg) (h : st.sub = SubPhase.receiving) :
      IStep cfg st Event.subRecvFail
        { st with sub := SubPhase.exited (some GoError.subscribeRecvErr), canceled := true }
  | handoff (st : IterState Msg) (m : Msg)
      (hs : st.sub = SubPhase.offering m) (hp : st.pub = PubPhase.selecting) :
      IStep cfg st (Event.handoff m)
        { st with sub := SubPhase.receiving
                  pub := PubPhase.sending m
                  handed := st.handed ++ [m] }
  | subCtxDone (st : IterState Msg) (m : Msg)
      (hs : st.sub = SubPhase.offering m) (hc : st.canceled = true) :
      IStep cfg st Event.subCtxDone
        { st with sub := SubPhase.exited (ctxErr st.canceled) }
  | pubCtxDone (st : IterState Msg)
      (hp : st.pub = PubPhase.selecting) (hc : st.canceled = true) :
      IStep cfg st Event.pubCtxDone
        { st with pub := PubPhase.exited (ctxErr st.canceled) }
  | pubSend (st : IterState Msg) (m : Msg) (hp : st.pub = PubPhase.sending m) :
      IStep cfg st (Event.pubSend m)
        { st with pub := PubPhase.selecting, sent := st.sent ++ [m] }
  | pubSendFail (st : IterState Msg) (m : Msg) (hp : st.pub = PubPhase.sending m) :
      IStep cfg st (Event.pubSendFail m)
        { st with pub := PubPhase.exited (some GoError.publishSendErr), canceled := true }

/-- State of the whole process after startup: either iteration n of the
for-loop of main is running, or iteration n has ended and eg.Wait has
returned r (logged when non-nil) and the loop is about to start over. -/
inductive SysState (Msg : Type) where
  | running (n : Nat) (st : IterState Msg)
  | restarting (n : Nat) (r : Option GoError)

/-- The full system: iteration steps, eg.Wait returning once both goroutines
have returned (yielding one of their non-nil errors, or nil only if both
returned nil), and the for-loop restarting with a fresh iteration. -/
inductive Sys {Msg : Type} (cfg : Config) :
    SysState Msg → Event Msg → SysState Msg → Prop where
  | iter {st st' : IterState Msg} {ev : Event Msg} (n : Nat)
      (h : IStep cfg st ev st') :
      Sys cfg (SysState.running n st) ev (SysState.running n st')
  | waitDone (n : Nat) (st : IterState Msg) (r1 r2 r : Option GoError)
      (hs : st.sub = SubPhase.exited r1) (hp : st.pub = PubPhase.exited r2)
      (hr : (r1 = none ∧ r2 = none ∧ r = none) ∨ (r ≠ none ∧ (r = r1 ∨ r = r2))) :
      Sys cfg (SysState.running n st) (Event.waitDone r) (SysState.restarting n r)
  | restart (n : Nat) (r : Option GoError) (ms : List Msg) :
      Sys cfg (SysState.restarting n r) (Event.restart ms)
        (SysState.running (n + 1) (initIter ms))

/-- One anonymous system step. -/
def SysStepR {Msg : Type} (cfg : Config) (s s' : SysState Msg) : Prop :=
  ∃ ev, Sys cfg s ev s'

/-- Reachability from process start (iteration 0 fresh, target will deliver
ms in iteration 0; later iterations pick their own deliveries). -/
def Reach {Msg : Type} (cfg : Config) (ms : List Msg) (s : SysState Msg) : Prop :=
  Relation.ReflTransGen (SysStepR cfg) (SysState.running 0 (initIter ms)) s

/-- Events of normal forwarding: no failure, no cancellation observation. -/
def CleanEv {Msg : Type} : Event Msg → Prop
  | Event.pubOpen _ => True
  | Event.subOpen _ => True
  | Event.subSendReq _ => True
  | Event.subRecv _ => True
  | Event.handoff _ => True
  | Event.pubSend _ => True
  | _ => False

/-- One iteration step along a clean event. -/
def CleanStep {Msg : Type} (cfg : Config) (st st' : IterState Msg) : Prop :=
  ∃ ev, IStep cfg st ev st' ∧ CleanEv ev

/-- Iteration states reached from a fresh iteration by clean steps only
(no failures, no cancellation: the hypothesis of the order-preservation
property). -/
def CleanReach {Msg : Type} (cfg : Config) (ms : List Msg) (st : IterState Msg) : Prop :=
  Relation.ReflTransGen (CleanStep cfg) (initIter ms) st

/-- The message the subscribe goroutine holds in its select, if any. -/
def subHold {Msg : Type} : SubPhase Msg → List Msg
  | SubPhase.offering m => [m]
  | _ => []

/-- The message the publish goroutine holds before stream.Send, if any. -/
def pubHold {Msg : Type} : PubPhase Msg → List Msg
  | PubPhase.sending m => [m]
  | _ => []

/-- Multiset-style conservation view of an iteration state: the messages
sent to the collector, then the message held by publish, then the message
held by subscribe, then the messages not yet received. -/
def conserve {Msg : Type} (st : IterState Msg) : List Msg :=
  st.sent ++ pubHold st.pub ++ subHold st.sub ++ st.pending

/-- The canonical mid-forwarding state: both sessions in steady state,
done already forwarded, rest still to come from the target. -/
def midState {Msg : Type} (cfg : Config) (done rest : List Msg) : IterState Msg :=
  { sub := SubPhase.receiving
    pub := PubPhase.selecting
    pending := rest
    sent := done
    handed := done
    reqs := [mkSubscribeRequest cfg.target cfg.paths]
    canceled := false }

/-- Lift a per-iteration predicate to system states (trivially true between
iterations). -/
def SysInv {Msg : Type} (P : IterState Msg → Prop) : SysState Msg → Prop
  | SysState.running _ st => P st
  | SysState.restarting _ _ => True

/-- What the request history may hold at each subscribe control point:
nothing before the session reaches the send, exactly the one built request
once it has entered the Recv loop, and never more than that one. -/
def reqsOf {Msg : Type} (cfg : Config) : SubPhase Msg → List SubscribeRequest → Prop
  | SubPhase.opening, reqs => reqs = []
  | SubPhase.sendingRequest, reqs => reqs = []
  | SubPhase.receiving, reqs => reqs = [mkSubscribeRequest cfg.target cfg.paths]
  | SubPhase.offering _, reqs => reqs = [mkSubscribeRequest cfg.target cfg.paths]
  | SubPhase.exited _, reqs =>
      reqs = [] ∨ reqs = [mkSubscribeRequest cfg.target cfg.paths]

/-- Invariant for the request history. -/
def ReqInv {Msg : Type} (cfg : Config) (st : IterState Msg) : Prop :=
  reqsOf cfg st.sub st.reqs

/-- Invariant: a session can only have returned after the errgroup scope was
cancelled (a goroutine returning cancels it in the same step). -/
def CancelInv {Msg : Type} (st : IterState Msg) : Prop :=
  (st.sub.isExited = true ∨ st.pub.isExited = true) → st.canceled = true

/-- Invariant: a session never returns nil. -/
def ErrInv {Msg : Type} (st : IterState Msg) : Prop :=
  (∀ r, st.sub = SubPhase.exited r → ∃ e, r = some e) ∧
  (∀ r, st.pub = PubPhase.exited r → ∃ e, r = some e)

/-- Invariant: the messages publish has sent to the collector, followed by
the message it currently holds, are exactly the messages that crossed the
channel; once publish has exited, what was sent is still a channel-order
prefix of what crossed. -/
def FwdInv {Msg : Type} (st : IterState Msg) : Prop :=
  (st.pub.isExited = false → st.sent ++ pubHold st.pub = st.handed) ∧
  (∃ t, st.sent ++ t = st.handed)

/-! ## Concrete inputs used by the witnesses -/

/-- A file system where every read and load fails. -/
def fsEmpty : FS :=
  { readFile := fun _ => Except.error "no such file"
    appendOK := fun _ => false
    loadKeyPair := fun _ _ => Except.error "load failed" }

/-- A file system holding one parsable CA bundle and one loadable key pair. -/
def fsGood : FS :=
  { readFile := fun p => if p = "ca.pem" then Except.ok [7] else Except.error "no such file"
    appendOK := fun _ => true
    loadKeyPair := fun p k =>
      if p = "client.pem" ∧ k = "client.key" then Except.ok [9] else Except.error "load failed" }

/-- A sample subscription path. -/
def gp1 : GPath := { elem := [{ name := "interfaces" }, { name := "interface" }] }

/-- A sample configuration with a username. -/
def cfg1 : Config :=
  { username := "admin", password := "", target := "t", paths := [gp1] }

/-- Sample flags with a client certificate but no key, TLS enabled. -/
def flagsNoKey : Flags :=
  { targetAddr := "127.0.0.1:6030"
    destAddr := "10.0.0.5:9339"
    useTLS := true
    skipVerify := false
    clientCert := "client.pem"
    clientKey := ""
    caFile := "" }

/-- A network where every dial succeeds. -/
def netUp : Net := { dialOK := fun _ => true }

/-! ## Request construction lemmas -/

/-- The for-loop over paths, written as a foldl, appends exactly one
TARGET_DEFINED entry per path, in order. -/
theorem foldl_subscription_append (paths : List GPath) (sl : SubscriptionList) :
    paths.foldl
      (fun sl p =>
        { sl with subscription :=
            sl.subscription ++ [{ path := p, mode := SubscriptionMode.targetDefined }] })
      sl
    = { sl with subscription :=
          sl.subscription ++
            paths.map (fun p => { path := p, mode := SubscriptionMode.targetDefined }) } := by
  induction paths generalizing sl with
  | nil => simp
  | cons p ps ih => simp [ih]

/-- Closed form of the built SubscriptionList. -/
theorem mkSubscriptionList_eq (target : String) (paths : List GPath) :
    mkSubscriptionList target paths =
      { pfx := { target := target }
        subscription :=
          paths.map (fun p => { path := p, mode := SubscriptionMode.targetDefined }) } := by
  unfold mkSubscriptionList
  rw [foldl_subscription_append]
  simp

/-! ## Credential builder lemmas and claims C6, C3 -/

/-- With TLS on, a given client certificate path and an empty key path, the
builder always returns an error (whichever branch of the CA handling ran). -/
theorem newTLSConfig_missing_key (fs : FS) (skipVerify : Bool)
    (certFile keyFile caFile : String) (hc : certFile ≠ "") (hk : keyFile = "") :
    ∃ e, (newTLSConfig fs true skipVerify certFile keyFile caFile).1 = Except.error e := by
  by_cases hsv : skipVerify
  · exact ⟨ConfigErr.missingKeyFile, by simp [newTLSConfig, hsv, hc, hk]⟩
  · by_cases hca : caFile = ""
    · exact ⟨ConfigErr.missingKeyFile, by simp [newTLSConfig, hsv, hca, hc, hk]⟩
    · cases hrf : fs.readFile caFile with
      | error e =>
        exact ⟨ConfigErr.readErr e, by simp [newTLSConfig, hsv, hca, hc, hk, hrf]⟩
      | ok b =>
        cases hap : fs.appendOK b with
        | false =>
          exact ⟨ConfigErr.appendCertsFailed, by simp [newTLSConfig, hsv, hca, hc, hk, hrf, hap]⟩
        | true =>
          exact ⟨ConfigErr.missingKeyFile, by simp [newTLSConfig, hsv, hca, hc, hk, hrf, hap]⟩

/-- When the credential builder fails, main exits before attempting any dial:
the startup network trace is empty. -/
theorem mainStartup_no_net_of_config_error (fs : FS) (net : Net) (fl : Flags) (e : ConfigErr)
    (h : (newTLSConfig fs fl.useTLS fl.skipVerify fl.clientCert fl.clientKey fl.caFile).1
        = Except.error e) :
    (mainStartup fs net fl).2 = [] := by
  rcases hx : newTLSConfig fs fl.useTLS fl.skipVerify fl.clientCert fl.clientKey fl.caFile
    with ⟨res, ops⟩
  rw [hx] at h
  simp only at h
  subst h
  simp [mainStartup, hx]

/-- C3 counterexample: a call of the credential builder with a client
certificate path given and an empty client key path that does not fail: with
TLS disabled the builder returns the insecure descriptor and no error. -/
theorem c3_counterexample :
    (newTLSConfig fsEmpty false false "client.pem" "" "ca.pem").1
      = Except.ok DialOption.withInsecure := rfl

/-- C3 (amended): for every call of the credential builder with TLS enabled
in which a client certificate path is given and the client key path is empty,
the builder fails with a ConfigError (a non-nil error, no credential
descriptor), and startup performs no network operation. -/
theorem c3_missing_key_fails (fs : FS) (net : Net) (fl : Flags)
    (htls : fl.useTLS = true) (hc : fl.clientCert ≠ "") (hk : fl.clientKey = "") :
    (∃ e, (newTLSConfig fs fl.useTLS fl.skipVerify fl.clientCert fl.clientKey fl.caFile).1
        = Except.error e) ∧
    (mainStartup fs net fl).2 = [] := by
  have h := newTLSConfig_missing_key fs fl.skipVerify fl.clientCert fl.clientKey fl.caFile hc hk
  rw [htls]
  refine ⟨h, ?_⟩
  rcases h with ⟨e, he⟩
  exact mainStartup_no_net_of_config_error fs net fl e (by rw [htls]; exact he)

/-- Witness for C3: the hypotheses hold at flagsNoKey, and there the builder
fails with the missing-key error while startup touches no network. -/
theorem c3_missing_key_fails_witness :
    (∃ e, (newTLSConfig fsEmpty flagsNoKey.useTLS flagsNoKey.skipVerify flagsNoKey.clientCert
        flagsNoKey.clientKey flagsNoKey.caFile).1 = Except.error e) ∧
    (mainStartup fsEmpty netUp flagsNoKey).2 = [] :=
  c3_missing_key_fails fsEmpty netUp flagsNoKey rfl (by decide) rfl

/-- C6: with TLS disabled the credential builder returns the no-transport-
security descriptor and no error, regardless of the skip-verify flag and of
the client-cert, client-key and CA paths, and it performs no file operation
(no file is read, no path is validated). -/
theorem c6_no_tls (fs : FS) (skipVerify : Bool) (certFile keyFile caFile : String) :
    newTLSConfig fs false skipVerify certFile keyFile caFile
      = (Except.ok DialOption.withInsecure, []) := rfl

/-! ## Claim C5: CA handling in the credential builder -/

/-- With skip-verify set, the builder never reads a CA file. -/
theorem skipVerify_no_ca_read (fs : FS) (certFile keyFile caFile p : String) :
    FileOp.readCAFile p ∉ (newTLSConfig fs true true certFile keyFile caFile).2 := by
  by_cases hc : certFile = ""
  · simp [newTLSConfig, hc]
  · by_cases hk : keyFile = ""
    · simp [newTLSConfig, hc, hk]
    · cases hl : fs.loadKeyPair certFile keyFile with
      | error e => simp [newTLSConfig, hc, hk, hl]
      | ok c => simp [newTLSConfig, hc, hk, hl]

/-- With skip-verify set, the result does not depend on the file system
except through tls.LoadX509KeyPair: the CA file may be missing or malformed
without effect. -/
theorem skipVerify_ca_env_irrelevant (fs fs2 : FS) (certFile keyFile caFile : String)
    (h : fs2.loadKeyPair = fs.loadKeyPair) :
    newTLSConfig fs2 true true certFile keyFile caFile
      = newTLSConfig fs true true certFile keyFile caFile := by
  simp [newTLSConfig, h]

/-- With skip-verify set, a successful result is a TLS descriptor with
server-certificate verification disabled and no explicit root set. -/
theorem skipVerify_descriptor (fs : FS) (certFile keyFile caFile : String) (d : DialOption)
    (h : (newTLSConfig fs true true certFile keyFile caFile).1 = Except.ok d) :
    ∃ c, d = DialOption.withTransportCredentials c ∧
      c.insecureSkipVerify = true ∧ c.rootCAs = none := by
  by_cases hc : certFile = ""
  · simp [newTLSConfig, hc] at h
    exact ⟨_, h.symm, rfl, rfl⟩
  · by_cases hk : keyFile = ""
    · simp [newTLSConfig, hc, hk] at h
    · cases hl : fs.loadKeyPair certFile keyFile with
      | error e => simp [newTLSConfig, hc, hk, hl] at h
      | ok c1 =>
        simp [newTLSConfig, hc, hk, hl] at h
        exact ⟨_, h.symm, rfl, rfl⟩

/-- Without skip-verify and with a CA path configured, the CA file is read. -/
theorem ca_read_in_ops (fs : FS) (certFile keyFile caFile : String) (hca : caFile ≠ "") :
    FileOp.readCAFile caFile ∈ (newTLSConfig fs true false certFile keyFile caFile).2 := by
  cases hrf : fs.readFile caFile with
  | error e => simp [newTLSConfig, hca, hrf]
  | ok b =>
    cases hap : fs.appendOK b with
    | false => simp [newTLSConfig, hca, hrf, hap]
    | true =>
      by_cases hc : certFile = ""
      · simp [newTLSConfig, hca, hrf, hap, hc]
      · by_cases hk : keyFile = ""
        · simp [newTLSConfig, hca, hrf, hap, hc, hk]
        · cases hl : fs.loadKeyPair certFile keyFile with
          | error e => simp [newTLSConfig, hca, hrf, hap, hc, hk, hl]
          | ok c1 => simp [newTLSConfig, hca, hrf, hap, hc, hk, hl]

/-- An unreadable CA file yields a ConfigError wrapping the read error. -/
theorem ca_read_error (fs : FS) (certFile keyFile caFile : String) (e : String)
    (hca : caFile ≠ "") (hrf : fs.readFile caFile = Except.error e) :
    (newTLSConfig fs true false certFile keyFile caFile).1
      = Except.error (ConfigErr.readErr e) := by
  simp [newTLSConfig, hca, hrf]

/-- An unparsable CA bundle yields the append-certificates ConfigError. -/
theorem ca_parse_error (fs : FS) (certFile keyFile caFile : String) (b : Bytes)
    (hca : caFile ≠ "") (hrf : fs.readFile caFile = Except.ok b)
    (hap : fs.appendOK b = false) :
    (newTLSConfig fs true false certFile keyFile caFile).1
      = Except.error ConfigErr.appendCertsFailed := by
  simp [newTLSConfig, hca, hrf, hap]

/-- On a successful parse, the CA bundle becomes the trusted root set of the
returned descriptor. -/
theorem ca_success_roots (fs : FS) (certFile keyFile caFile : String) (b : Bytes)
    (d : DialOption) (hca : caFile ≠ "") (hrf : fs.readFile caFile = Except.ok b)
    (hap : fs.appendOK b = true)
    (h : (newTLSConfig fs true false certFile keyFile caFile).1 = Except.ok d) :
    ∃ c, d = DialOption.withTransportCredentials c ∧
      c.rootCAs = some { pems := [b] } ∧ c.insecureSkipVerify = false := by
  by_cases hc : certFile = ""
  · simp [newTLSConfig, hca, hrf, hap, hc, CertPool.new] at h
    exact ⟨_, h.symm, rfl, rfl⟩
  · by_cases hk : keyFile = ""
    · simp [newTLSConfig, hca, hrf, hap, hc, hk] at h
    · cases hl : fs.loadKeyPair certFile keyFile with
      | error e => simp [newTLSConfig, hca, hrf, hap, hc, hk, hl] at h
      | ok c1 =>
        simp [newTLSConfig, hca, hrf, hap, hc, hk, hl, CertPool.new] at h
        exact ⟨_, h.symm, rfl, rfl⟩

/-- With an empty CA path (and no skip-verify), a successful descriptor keeps
the system default trust store: no explicit root set. -/
theorem ca_empty_system_roots (fs : FS) (certFile keyFile : String) (d : DialOption)
    (h : (newTLSConfig fs true false certFile keyFile "").1 = Except.ok d) :
    ∃ c, d = DialOption.withTransportCredentials c ∧
      c.rootCAs = none ∧ c.insecureSkipVerify = false := by
  by_cases hc : certFile = ""
  · simp [newTLSConfig, hc] at h
    exact ⟨_, h.symm, rfl, rfl⟩
  · by_cases hk : keyFile = ""
    · simp [newTLSConfig, hc, hk] at h
    · cases hl : fs.loadKeyPair certFile keyFile with
      | error e => simp [newTLSConfig, hc, hk, hl] at h
      | ok c1 =>
        simp [newTLSConfig, hc, hk, hl] at h
        exact ⟨_, h.symm, rfl, rfl⟩

/-- C5: with TLS enabled: when skip-verify is set the returned descriptor
disables server-certificate verification and the CA file is never read or
parsed (the CA-related environment cannot influence the result); otherwise,
when a CA path is given, the file is read, an unreadable or unparsable file
yields a ConfigError, and on success the bundle becomes the trusted root set;
an empty CA path leaves the system default trust store (no explicit roots). -/
theorem c5_ca_handling (fs : FS) (certFile keyFile caFile : String) :
    ((∀ p, FileOp.readCAFile p ∉ (newTLSConfig fs true true certFile keyFile caFile).2) ∧
     (∀ fs2 : FS, fs2.loadKeyPair = fs.loadKeyPair →
        newTLSConfig fs2 true true certFile keyFile caFile
          = newTLSConfig fs true true certFile keyFile caFile) ∧
     (∀ d, (newTLSConfig fs true true certFile keyFile caFile).1 = Except.ok d →
        ∃ c, d = DialOption.withTransportCredentials c ∧
          c.insecureSkipVerify = true ∧ c.rootCAs = none)) ∧
    (caFile ≠ "" →
      (FileOp.readCAFile caFile ∈ (newTLSConfig fs true false certFile keyFile caFile).2) ∧
      (∀ e, fs.readFile caFile = Except.error e →
        (newTLSConfig fs true false certFile keyFile caFile).1
          = Except.error (ConfigErr.readErr e)) ∧
      (∀ b, fs.readFile caFile = Except.ok b → fs.appendOK b = false →
        (newTLSConfig fs true false certFile keyFile caFile).1
          = Except.error ConfigErr.appendCertsFailed) ∧
      (∀ b d, fs.readFile caFile = Except.ok b → fs.appendOK b = true →
        (newTLSConfig fs true false certFile keyFile caFile).1 = Except.ok d →
        ∃ c, d = DialOption.withTransportCredentials c ∧
          c.rootCAs = some { pems := [b] } ∧ c.insecureSkipVerify = false)) ∧
    (∀ d, (newTLSConfig fs true false certFile keyFile "").1 = Except.ok d →
      ∃ c, d = DialOption.withTransportCredentials c ∧
        c.rootCAs = none ∧ c.insecureSkipVerify = false) := by
  refine ⟨⟨fun p => skipVerify_no_ca_read fs certFile keyFile caFile p,
      fun fs2 h => skipVerify_ca_env_irrelevant fs fs2 certFile keyFile caFile h,
      fun d h => skipVerify_descriptor fs certFile keyFile caFile d h⟩,
    fun hca => ⟨ca_read_in_ops fs certFile keyFile caFile hca,
      fun e hrf => ca_read_error fs certFile keyFile caFile e hca hrf,
      fun b hrf hap => ca_parse_error fs certFile keyFile caFile b hca hrf hap,
      fun b d hrf hap h => ca_success_roots fs certFile keyFile caFile b d hca hrf hap h⟩,
    fun d h => ca_empty_system_roots fs certFile keyFile d h⟩

/-- Witness for C5: at fsGood with CA path ca.pem, the hypotheses of the
successful-parse conjunct hold and the resulting descriptor carries the
bundle as its root set. -/
theorem c5_ca_handling_witness :
    ∃ c : TLSConfigGo,
      DialOption.withTransportCredentials
          { insecureSkipVerify := false, rootCAs := some { pems := [[7]] }, certificates := [] }
        = DialOption.withTransportCredentials c ∧
      c.rootCAs = some { pems := [[7]] } ∧ c.insecureSkipVerify = false :=
  ((c5_ca_handling fsGood "" "" "ca.pem").2.1 (by decide)).2.2.2 [7]
    (DialOption.withTransportCredentials
      { insecureSkipVerify := false, rootCAs := some { pems := [[7]] }, certificates := [] })
    rfl rfl rfl

/-! ## Claim C4: authentication metadata -/

/-- C4: on every system transition, a subscribe stream open carries the
username/password pairs exactly when the configured username is non-empty
(the password is attached even when it is the empty string), and a publish
stream open never carries any metadata. -/
theorem c4_metadata {Msg : Type} (cfg : Config) (s s' : SysState Msg) (ev : Event Msg)
    (h : Sys cfg s ev s') :
    (∀ md, ev = Event.subOpen md →
        (cfg.username ≠ "" → md = [("username", cfg.username), ("password", cfg.password)]) ∧
        (cfg.username = "" → md = [])) ∧
    (∀ md, ev = Event.pubOpen md → md = []) := by
  constructor
  · rintro md rfl
    cases h with
    | iter n hi =>
      cases hi with
      | subOpen hsub =>
        constructor
        · intro hu
          simp [subscribeCallCtx, hu, newOutgoingContext, metadataPairs]
        · intro hu
          simp [subscribeCallCtx, hu, backgroundCtx]
  · rintro md rfl
    cases h with
    | iter n hi =>
      cases hi with
      | pubOpen hpub => simp [publishCallCtx, backgroundCtx]

/-- Witness for C4: a concrete subscribe stream open under cfg1 (username
admin, empty password) carries exactly the two pairs, password included. -/
theorem c4_metadata_witness :
    (subscribeCallCtx backgroundCtx cfg1.username cfg1.password).md
      = [("username", cfg1.username), ("password", cfg1.password)] := by
  have h := c4_metadata cfg1
    (SysState.running 0 (initIter ([] : List Nat)))
    (SysState.running 0 { initIter ([] : List Nat) with sub := SubPhase.sendingRequest })
    (Event.subOpen (subscribeCallCtx backgroundCtx cfg1.username cfg1.password).md)
    (Sys.iter 0 (IStep.subOpen (initIter ([] : List Nat)) rfl))
  exact (h.1 _ rfl).1 (by decide)

/-! ## Reachability invariants -/

/-- Any per-iteration invariant that holds in every fresh iteration and is
preserved by every iteration step holds in every reachable running state. -/
theorem sys_inv_of_reach {Msg : Type} (cfg : Config) (P : IterState Msg → Prop)
    (hInit : ∀ ms : List Msg, P (initIter ms))
    (hStep : ∀ st ev st', IStep cfg st ev st' → P st → P st')
    (ms : List Msg) (s : SysState Msg) (h : Reach cfg ms s) : SysInv P s := by
  induction h with
  | refl => exact hInit ms
  | tail hr hstep ih =>
    rcases hstep with ⟨ev, hsys⟩
    cases hsys with
    | iter n hi => exact hStep _ _ _ hi ih
    | waitDone n st r1 r2 r hs hp hr2 => trivial
    | restart n r ms2 => exact hInit ms2

/-- The request-history invariant is preserved by iteration steps. -/
theorem reqInv_step {Msg : Type} (cfg : Config) (st : IterState Msg) (ev : Event Msg)
    (st' : IterState Msg) (h : IStep cfg st ev st') (hP : ReqInv cfg st) :
    ReqInv cfg st' := by
  cases h <;> simp_all [ReqInv, reqsOf]

/-- The cancellation invariant is preserved by iteration steps. -/
theorem cancelInv_step {Msg : Type} (cfg : Config) (st : IterState Msg) (ev : Event Msg)
    (st' : IterState Msg) (h : IStep cfg st ev st') (hP : CancelInv st) :
    CancelInv st' := by
  cases h <;>
    simp_all [CancelInv, SubPhase.isExited, PubPhase.isExited]

/-- The no-nil-error invariant is preserved by iteration steps. -/
theorem errInv_step {Msg : Type} (cfg : Config) (st : IterState Msg) (ev : Event Msg)
    (st' : IterState Msg) (h : IStep cfg st ev st') (hP : ErrInv st) :
    ErrInv st' := by
  cases h <;> simp_all [ErrInv, ctxErr]

/-- The forwarding invariant is preserved by iteration steps. -/
theorem fwdInv_step {Msg : Type} (cfg : Config) (st : IterState Msg) (ev : Event Msg)
    (st' : IterState Msg) (h : IStep cfg st ev st') (hP : FwdInv st) :
    FwdInv st' := by
  obtain ⟨h1, h2⟩ := hP
  cases h with
  | pubOpen h =>
    refine ⟨fun _ => ?_, h2⟩
    have e := h1 (by simp [h, PubPhase.isExited])
    rw [h] at e
    simpa [pubHold] using e
  | pubOpenFail h =>
    refine ⟨fun hfalse => ?_, h2⟩
    simp [PubPhase.isExited] at hfalse
  | subOpen h => exact ⟨h1, h2⟩
  | subOpenFail h => exact ⟨h1, h2⟩
  | subSendReq h => exact ⟨h1, h2⟩
  | subSendReqFail h => exact ⟨h1, h2⟩
  | subRecv m rest h hp => exact ⟨h1, h2⟩
  | subRecvFail h => exact ⟨h1, h2⟩
  | handoff m hs hp =>
    have e := h1 (by simp [hp, PubPhase.isExited])
    rw [hp] at e
    simp [pubHold] at e
    constructor
    · intro _
      simp [pubHold, e]
    · exact ⟨[m], by rw [e]⟩
  | subCtxDone m hs hc => exact ⟨h1, h2⟩
  | pubCtxDone hp hc =>
    have e := h1 (by simp [hp, PubPhase.isExited])
    rw [hp] at e
    simp [pubHold] at e
    refine ⟨fun hfalse => ?_, ⟨[], by simpa using e⟩⟩
    simp [PubPhase.isExited] at hfalse
  | pubSend m hp =>
    have e := h1 (by simp [hp, PubPhase.isExited])
    rw [hp] at e
    simp [pubHold] at e
    refine ⟨fun _ => ?_, ⟨[], by simpa using e⟩⟩
    simpa [pubHold] using e
  | pubSendFail m hp =>
    have e := h1 (by simp [hp, PubPhase.isExited])
    rw [hp] at e
    simp [pubHold] at e
    refine ⟨fun hfalse => ?_, ⟨[m], e⟩⟩
    simp [PubPhase.isExited] at hfalse

/-! ## Claim C2: exactly one subscription request -/

/-- Unpacking the request-history invariant: never more than one request,
every sent request is the built one, and exactly one has been sent once the
session is in its Recv loop. -/
theorem reqsOf_props {Msg : Type} (cfg : Config) (sub : SubPhase Msg)
    (reqs : List SubscribeRequest) (h : reqsOf cfg sub reqs) :
    reqs.length ≤ 1 ∧
    (∀ r ∈ reqs, r = mkSubscribeRequest cfg.target cfg.paths) ∧
    (sub = SubPhase.receiving ∨ (∃ m, sub = SubPhase.offering m) →
      reqs = [mkSubscribeRequest cfg.target cfg.paths]) := by
  cases sub with
  | opening =>
    simp only [reqsOf] at h
    subst h
    simp
  | sendingRequest =>
    simp only [reqsOf] at h
    subst h
    simp
  | receiving =>
    simp only [reqsOf] at h
    subst h
    simp
  | offering m =>
    simp only [reqsOf] at h
    subst h
    simp
  | exited r =>
    simp only [reqsOf] at h
    rcases h with h | h <;> subst h <;> simp

/-- C2: in every reachable state, the subscribe session has passed at most
one request to the stream, any passed request is exactly the built one, and
once the session is receiving, exactly one was passed; the built request has
the configured target identifier in the target field of its prefix path and
one TARGET_DEFINED subscription per configured path, in configured order
with duplicates preserved. -/
theorem c2_one_request {Msg : Type} (cfg : Config) (ms : List Msg) (s : SysState Msg)
    (h : Reach cfg ms s) :
    (∀ n st, s = SysState.running n st →
        st.reqs.length ≤ 1 ∧
        (∀ r ∈ st.reqs, r = mkSubscribeRequest cfg.target cfg.paths) ∧
        (st.sub = SubPhase.receiving ∨ (∃ m, st.sub = SubPhase.offering m) →
          st.reqs = [mkSubscribeRequest cfg.target cfg.paths])) ∧
    (mkSubscribeRequest cfg.target cfg.paths).subscribe.pfx.target = cfg.target ∧
    (mkSubscribeRequest cfg.target cfg.paths).subscribe.subscription
      = cfg.paths.map (fun p => { path := p, mode := SubscriptionMode.targetDefined }) := by
  refine ⟨?_, ?_, ?_⟩
  · intro n st hs
    have hinv := sys_inv_of_reach cfg (ReqInv cfg)
      (fun ms2 => by simp [ReqInv, reqsOf, initIter])
      (fun a b c hstep hp => reqInv_step cfg a b c hstep hp) ms s h
    subst hs
    exact reqsOf_props cfg st.sub st.reqs hinv
  · rw [mkSubscribeRequest, mkSubscriptionList_eq]
  · rw [mkSubscribeRequest, mkSubscriptionList_eq]

/-- Witness for C2: under cfg1 the built request carries target t in its
prefix and exactly the one TARGET_DEFINED entry for the configured path. -/
theorem c2_one_request_witness :
    (mkSubscribeRequest cfg1.target cfg1.paths).subscribe.pfx.target = cfg1.target ∧
    (mkSubscribeRequest cfg1.target cfg1.paths).subscribe.subscription
      = [{ path := gp1, mode := SubscriptionMode.targetDefined }] := by
  have h := c2_one_request cfg1 ([] : List Nat) _ Relation.ReflTransGen.refl
  exact ⟨h.2.1, by rw [h.2.2]; simp [cfg1]⟩

/-! ## Claim C8: sessions never return success -/

/-- C8: in every reachable state, a session that has returned did so with a
non-nil error: there is no successful termination of either the subscribe
session or the publish session. -/
theorem c8_sessions_never_succeed {Msg : Type} (cfg : Config) (ms : List Msg)
    (s : SysState Msg) (h : Reach cfg ms s) (n : Nat) (st : IterState Msg)
    (hs : s = SysState.running n st) :
    (∀ r, st.sub = SubPhase.exited r → ∃ e, r = some e) ∧
    (∀ r, st.pub = PubPhase.exited r → ∃ e, r = some e) := by
  have hinv := sys_inv_of_reach cfg ErrInv
    (fun ms2 => by simp [ErrInv, initIter])
    (fun a b c hstep hp => errInv_step cfg a b c hstep hp) ms s h
  subst hs
  exact hinv

/-- Witness for C8: a concrete reachable state in which the subscribe
session has returned, with the stream-open error. -/
theorem c8_sessions_never_succeed_witness :
    ∃ e, (some GoError.subscribeOpenErr : Option GoError) = some e := by
  have hstep : Sys cfg1 (SysState.running 0 (initIter ([5] : List Nat)))
      Event.subOpenFail
      (SysState.running 0
        { initIter ([5] : List Nat) with
            sub := SubPhase.exited (some GoError.subscribeOpenErr), canceled := true }) :=
    Sys.iter 0 (IStep.subOpenFail (initIter [5]) rfl)
  have h := c8_sessions_never_succeed cfg1 [5] _
    (Relation.ReflTransGen.single ⟨Event.subOpenFail, hstep⟩) 0 _ rfl
  exact h.1 (some GoError.subscribeOpenErr) rfl

/-! ## Claim C10: cancellation couples the pair -/

/-- C10: a session exit always leaves the scope cancelled; with the scope
cancelled, the other session at its select exits in one step with the
cancellation reason as its error; an iteration can only end once both
sessions have exited; and a restart begins with both sessions at their entry
points. -/
theorem c10_pair_teardown {Msg : Type} (cfg : Config) (ms : List Msg) :
    (∀ s, Reach cfg ms s → ∀ n st, s = SysState.running n st →
        (st.sub.isExited = true ∨ st.pub.isExited = true) → st.canceled = true) ∧
    (∀ st : IterState Msg, st.canceled = true → st.pub = PubPhase.selecting →
        IStep cfg st Event.pubCtxDone
          { st with pub := PubPhase.exited (some GoError.contextCanceled) }) ∧
    (∀ (st : IterState Msg) (m : Msg), st.canceled = true → st.sub = SubPhase.offering m →
        IStep cfg st Event.subCtxDone
          { st with sub := SubPhase.exited (some GoError.contextCanceled) }) ∧
    (∀ (n : Nat) (st : IterState Msg) ev (n2 : Nat) (r : Option GoError),
        Sys cfg (SysState.running n st) ev (SysState.restarting n2 r) →
        st.sub.isExited = true ∧ st.pub.isExited = true) ∧
    (∀ (n : Nat) (r : Option GoError) ev (s' : SysState Msg),
        Sys cfg (SysState.restarting n r) ev s' →
        ∃ ms2, s' = SysState.running (n + 1) (initIter ms2) ∧
          (initIter ms2 : IterState Msg).sub = SubPhase.opening ∧
          (initIter ms2 : IterState Msg).pub = PubPhase.opening) := by
  refine ⟨?_, ?_, ?_, ?_, ?_⟩
  · intro s hreach n st hs
    have hinv := sys_inv_of_reach cfg CancelInv
      (fun ms2 => by simp [CancelInv, initIter, SubPhase.isExited, PubPhase.isExited])
      (fun a b c hstep hp => cancelInv_step cfg a b c hstep hp) ms s hreach
    subst hs
    exact hinv
  · intro st hc hp
    have h : IStep cfg st Event.pubCtxDone
        { st with pub := PubPhase.exited (ctxErr st.canceled) } :=
      IStep.pubCtxDone st hp hc
    simpa [ctxErr, hc] using h
  · intro st m hc hs
    have h : IStep cfg st Event.subCtxDone
        { st with sub := SubPhase.exited (ctxErr st.canceled) } :=
      IStep.subCtxDone st m hs hc
    simpa [ctxErr, hc] using h
  · intro n st ev n2 r hsys
    cases hsys with
    | waitDone n st2 r1 r2 r3 hs hp hr =>
      exact ⟨by simp [hs, SubPhase.isExited], by simp [hp, PubPhase.isExited]⟩
  · intro n r ev s2 hsys
    cases hsys with
    | restart n r ms2 => exact ⟨ms2, rfl, rfl, rfl⟩

/-- Witness for C10: in a concrete cancelled state with publish at its
select, the one-step cancellation exit is a step of the semantics. -/
theorem c10_pair_teardown_witness :
    IStep cfg1
      { initIter ([5] : List Nat) with pub := PubPhase.selecting, canceled := true }
      Event.pubCtxDone
      { { initIter ([5] : List Nat) with pub := PubPhase.selecting, canceled := true } with
          pub := PubPhase.exited (some GoError.contextCanceled) } :=
  (c10_pair_teardown cfg1 ([] : List Nat)).2.1
    { initIter ([5] : List Nat) with pub := PubPhase.selecting, canceled := true } rfl rfl

/-! ## Claim C7: the retry loop never stops -/

/-- C7: after any iteration end, whatever the logged error, the restart
transition to a fresh iteration (fresh scope, fresh channel, fresh session
pair, next index) is always enabled, it is the only possible continuation,
and every reachable system state has a successor: the loop neither exits nor
gets stuck, whatever errors the sessions produce. -/
theorem c7_retry_forever {Msg : Type} (cfg : Config) (ms : List Msg) :
    (∀ (n : Nat) (r : Option GoError) (ms2 : List Msg),
        Sys cfg (SysState.restarting n r) (Event.restart ms2)
          (SysState.running (n + 1) (initIter ms2))) ∧
    (∀ (n : Nat) (r : Option GoError) ev (s' : SysState Msg),
        Sys cfg (SysState.restarting n r) ev s' →
        ∃ ms2, ev = Event.restart ms2 ∧ s' = SysState.running (n + 1) (initIter ms2)) ∧
    (∀ s, Reach cfg ms s → ∃ ev s', Sys cfg s ev s') := by
  refine ⟨fun n r ms2 => Sys.restart n r ms2, ?_, ?_⟩
  · intro n r ev s2 hsys
    cases hsys with
    | restart n r ms2 => exact ⟨ms2, rfl, rfl⟩
  · intro s hreach
    have hinv := sys_inv_of_reach cfg CancelInv
      (fun ms2 => by simp [CancelInv, initIter, SubPhase.isExited, PubPhase.isExited])
      (fun a b c hstep hp => cancelInv_step cfg a b c hstep hp) ms s hreach
    cases s with
    | restarting n r => exact ⟨Event.restart [], _, Sys.restart n r []⟩
    | running n st =>
      rcases hsub : st.sub with _ | _ | _ | m | r1
      · exact ⟨_, _, Sys.iter n (IStep.subOpen st hsub)⟩
      · exact ⟨_, _, Sys.iter n (IStep.subSendReq st hsub)⟩
      · exact ⟨_, _, Sys.iter n (IStep.subRecvFail st hsub)⟩
      · rcases hpub : st.pub with _ | _ | m2 | r2
        · exact ⟨_, _, Sys.iter n (IStep.pubOpen st hpub)⟩
        · exact ⟨_, _, Sys.iter n (IStep.handoff st m hsub hpub)⟩
        · exact ⟨_, _, Sys.iter n (IStep.pubSend st m2 hpub)⟩
        · have hc : st.canceled = true :=
            hinv (Or.inr (by simp [hpub, PubPhase.isExited]))
          exact ⟨_, _, Sys.iter n (IStep.subCtxDone st m hsub hc)⟩
      · rcases hpub : st.pub with _ | _ | m2 | r2
        · exact ⟨_, _, Sys.iter n (IStep.pubOpen st hpub)⟩
        · have hc : st.canceled = true :=
            hinv (Or.inl (by simp [hsub, SubPhase.isExited]))
          exact ⟨_, _, Sys.iter n (IStep.pubCtxDone st hpub hc)⟩
        · exact ⟨_, _, Sys.iter n (IStep.pubSend st m2 hpub)⟩
        · cases r1 with
          | none =>
            cases r2 with
            | none =>
              exact ⟨_, _, Sys.waitDone n st none none none hsub hpub
                (Or.inl ⟨rfl, rfl, rfl⟩)⟩
            | some e2 =>
              exact ⟨_, _, Sys.waitDone n st none (some e2) (some e2) hsub hpub
                (Or.inr ⟨by simp, Or.inr rfl⟩)⟩
          | some e1 =>
            exact ⟨_, _, Sys.waitDone n st (some e1) r2 (some e1) hsub hpub
              (Or.inr ⟨by simp, Or.inl rfl⟩)⟩

/-- Witness for C7: a concrete iteration end at index 3 is followed only by
the restart into the fresh iteration 4. -/
theorem c7_retry_forever_witness :
    ∃ ms2 : List Nat, (Event.restart ([7] : List Nat) : Event Nat) = Event.restart ms2 ∧
      (SysState.running (3 + 1) (initIter ([7] : List Nat)) : SysState Nat)
        = SysState.running (3 + 1) (initIter ms2) :=
  (c7_retry_forever cfg1 ([] : List Nat)).2.1 3 (some GoError.contextCanceled) _ _
    (Sys.restart 3 (some GoError.contextCanceled) [7])

/-! ## Claim C1: the relay is the identity on message sequences -/

/-- Clean steps conserve the message sequence: sent, in-flight and pending
messages always concatenate to the full delivery. -/
theorem clean_step_conserve {Msg : Type} (cfg : Config) (st st' : IterState Msg)
    (ev : Event Msg) (h : IStep cfg st ev st') (hc : CleanEv ev) :
    conserve st' = conserve st := by
  cases h <;> simp_all [CleanEv, conserve, subHold, pubHold]

/-- The conservation equation holds along every clean execution. -/
theorem clean_reach_conserve {Msg : Type} (cfg : Config) (ms : List Msg)
    (st : IterState Msg) (h : CleanReach cfg ms st) : conserve st = ms := by
  induction h with
  | refl => simp [conserve, initIter, subHold, pubHold]
  | tail hr hstep ih =>
    rcases hstep with ⟨ev, hi, hcl⟩
    rw [clean_step_conserve cfg _ _ ev hi hcl, ih]

/-- The canonical clean run bringing both sessions into steady state. -/
theorem clean_reach_mid {Msg : Type} (cfg : Config) (ms : List Msg) :
    CleanReach cfg ms (midState cfg [] ms) := by
  have s1 : CleanStep cfg (initIter ms) { initIter ms with pub := PubPhase.selecting } :=
    ⟨_, IStep.pubOpen _ rfl, trivial⟩
  have s2 : CleanStep cfg { initIter ms with pub := PubPhase.selecting }
      { initIter ms with pub := PubPhase.selecting, sub := SubPhase.sendingRequest } :=
    ⟨_, IStep.subOpen _ rfl, trivial⟩
  have s3 : CleanStep cfg
      { initIter ms with pub := PubPhase.selecting, sub := SubPhase.sendingRequest }
      (midState cfg [] ms) :=
    ⟨_, IStep.subSendReq _ rfl, trivial⟩
  exact Relation.ReflTransGen.head s1 (Relation.ReflTransGen.head s2
    (Relation.ReflTransGen.single s3))

/-- From steady state, every pending message is received, handed off and
sent, in order, by clean steps. -/
theorem clean_steps_deliver {Msg : Type} (cfg : Config) (done rest : List Msg) :
    Relation.ReflTransGen (CleanStep cfg) (midState cfg done rest)
      (midState cfg (done ++ rest) []) := by
  induction rest generalizing done with
  | nil => simpa using Relation.ReflTransGen.refl
  | cons m rest ih =>
    have t1 : CleanStep cfg (midState cfg done (m :: rest))
        { sub := SubPhase.offering m, pub := PubPhase.selecting, pending := rest,
          sent := done, handed := done,
          reqs := [mkSubscribeRequest cfg.target cfg.paths], canceled := false } :=
      ⟨_, IStep.subRecv _ m rest rfl rfl, trivial⟩
    have t2 : CleanStep cfg
        { sub := SubPhase.offering m, pub := PubPhase.selecting, pending := rest,
          sent := done, handed := done,
          reqs := [mkSubscribeRequest cfg.target cfg.paths], canceled := false }
        { sub := SubPhase.receiving, pub := PubPhase.sending m, pending := rest,
          sent := done, handed := done ++ [m],
          reqs := [mkSubscribeRequest cfg.target cfg.paths], canceled := false } :=
      ⟨_, IStep.handoff _ m rfl rfl, trivial⟩
    have t3 : CleanStep cfg
        { sub := SubPhase.receiving, pub := PubPhase.sending m, pending := rest,
          sent := done, handed := done ++ [m],
          reqs := [mkSubscribeRequest cfg.target cfg.paths], canceled := false }
        (midState cfg (done ++ [m]) rest) :=
      ⟨_, IStep.pubSend _ m rfl, trivial⟩
    have h4 := ih (done ++ [m])
    simp only [List.append_assoc, List.singleton_append] at h4
    exact Relation.ReflTransGen.head t1 (Relation.ReflTransGen.head t2
      (Relation.ReflTransGen.head t3 h4))

/-- C1: within one iteration, along every cancellation-free and failure-free
execution the messages sent to the collector, the in-flight messages and the
not-yet-received messages concatenate to exactly the received sequence (no
duplication, no drop, no reordering), and there is such an execution that
delivers the whole sequence to the collector. -/
theorem c1_relay_identity {Msg : Type} (cfg : Config) (ms : List Msg) :
    (∀ st, CleanReach cfg ms st →
        st.sent ++ pubHold st.pub ++ subHold st.sub ++ st.pending = ms) ∧
    (∃ st, CleanReach cfg ms st ∧ st.sent = ms ∧ st.pending = [] ∧
        subHold st.sub = [] ∧ pubHold st.pub = []) := by
  constructor
  · intro st h
    exact clean_reach_conserve cfg ms st h
  · refine ⟨midState cfg ms [], ?_, rfl, rfl, rfl, rfl⟩
    have h := Relation.ReflTransGen.trans (clean_reach_mid cfg ms)
      (clean_steps_deliver cfg [] ms)
    simpa using h

/-- Witness for C1: the conservation equation instantiated at the fresh
iteration for a concrete two-message delivery. -/
theorem c1_relay_identity_witness :
    (initIter ([1, 2] : List Nat)).sent ++ pubHold (initIter ([1, 2] : List Nat)).pub
        ++ subHold (initIter ([1, 2] : List Nat)).sub
        ++ (initIter ([1, 2] : List Nat)).pending
      = [1, 2] :=
  (c1_relay_identity cfg1 [1, 2]).1 _ Relation.ReflTransGen.refl

/-! ## Claim C9: publish only relays -/

/-- C9: no step of the semantics is a read of the response side of the
publish stream, and in every reachable state the messages publish has sent
to the collector, extended by the message it still holds, are exactly the
messages received from the channel, unmodified and in channel order (after a
publish exit, what was sent is still exactly a channel-order front segment). -/
theorem c9_publish_forwards {Msg : Type} (cfg : Config) (ms : List Msg) :
    (∀ (st : IterState Msg) ev st', IStep cfg st ev st' →
        ∀ m : Msg, ev ≠ Event.pubRecvResponse m) ∧
    (∀ s, Reach cfg ms s → ∀ n st, s = SysState.running n st →
        (st.pub.isExited = false → st.sent ++ pubHold st.pub = st.handed) ∧
        ∃ t, st.sent ++ t = st.handed) := by
  constructor
  · intro st ev st' h m
    cases h <;> simp
  · intro s hreach n st hs
    have hinv := sys_inv_of_reach cfg FwdInv
      (fun ms2 => ⟨fun _ => rfl, ⟨[], rfl⟩⟩)
      (fun a b c hstep hp => fwdInv_step cfg a b c hstep hp) ms s hreach
    subst hs
    exact hinv

/-- Witness for C9: the forwarding equations instantiated at a concrete
reachable state. -/
theorem c9_publish_forwards_witness :
    ((initIter ([5] : List Nat)).pub.isExited = false →
      (initIter ([5] : List Nat)).sent ++ pubHold (initIter ([5] : List Nat)).pub
        = (initIter ([5] : List Nat)).handed) ∧
    ∃ t, (initIter ([5] : List Nat)).sent ++ t = (initIter ([5] : List Nat)).handed :=
  (c9_publish_forwards cfg1 [5]).2 _ Relation.ReflTransGen.refl 0 _ rfl
